import Mathlib

set_option maxRecDepth 4000

/-!
Verification development for the provider-normalisation and tool-orchestration
core of a multi-provider chat agent.  The definitions below are shallow
embeddings of the Python source files `agent.py`, `tools/tool.py`,
`providers/base.py`, `providers/modelscope.py`, `providers/openai.py` and
`providers/openai_compatible.py`.

Modelling conventions:
* Python dictionaries are insertion-ordered association lists with unique keys;
  JSON values are the inductive `Json`.
* Network effects (HTTP status, response body, SSE lines) and `json.loads`
  are explicit inputs; a parse outcome is carried by the input instead of
  re-implementing a JSON parser.
* Python generator semantics are explicit: yielded values are collected in a
  list, a `return value` inside a generator terminates iteration and its value
  is invisible to a `for` loop, an uncaught exception is a separate marker.
* Exceptions are `Except Unit` / `Except String` values; a `try/except` block
  is a `match` on them.
* `\d` and `\s` of the Python regexes and `str.strip`, `str.split` whitespace
  are modelled over the ASCII range used by the source patterns.
-/

/-- JSON values, the common currency of all provider payloads. -/
inductive Json where
  | str (s : String)
  | num (n : Int)
  | bool (b : Bool)
  | null
  | arr (elems : List Json)
  | obj (fields : List (String × Json))

/-- A Python dict as an insertion-ordered association list. -/
abbrev Dict := List (String × Json)

/-- Key membership test of a Python dict. -/
def hasKey (d : Dict) (k : String) : Bool := d.any (fun kv => kv.1 == k)

/-- `d[k]` without exception: the value stored under `k`, if any. -/
def dictGet (d : Dict) (k : String) : Option Json :=
  (d.find? (fun kv => kv.1 == k)).map (fun kv => kv.2)

/-- `d[k] = v`: update in place when the key exists, append otherwise. -/
def dictSet (d : Dict) (k : String) (v : Json) : Dict :=
  if hasKey d k then d.map (fun kv => if kv.1 == k then (k, v) else kv)
  else d ++ [(k, v)]

/-- Python truthiness of a JSON value. -/
def pyTruthy : Json → Bool
  | .str s => !(s == "")
  | .num n => !(n == 0)
  | .bool b => b
  | .null => false
  | .arr l => !l.isEmpty
  | .obj f => !f.isEmpty

/-- The character `\x7b` as a string, used to print JSON objects. -/
def lbraceS : String := String.singleton (Char.ofNat 123)

/-- The character `\x7d` as a string, used to print JSON objects. -/
def rbraceS : String := String.singleton (Char.ofNat 125)

mutual
/-- A `json.dumps`-style rendering (string escaping is not modelled; no claim
inspects the rendered text of a string containing quotes). -/
def jsonDumps : Json → String
  | .str s => "\"" ++ s ++ "\""
  | .num n => toString n
  | .bool true => "true"
  | .bool false => "false"
  | .null => "null"
  | .arr l => "[" ++ jsonDumpsArr l ++ "]"
  | .obj f => lbraceS ++ jsonDumpsObj f ++ rbraceS

def jsonDumpsArr : List Json → String
  | [] => ""
  | [x] => jsonDumps x
  | x :: y :: xs => jsonDumps x ++ ", " ++ jsonDumpsArr (y :: xs)

def jsonDumpsObj : List (String × Json) → String
  | [] => ""
  | [kv] => "\"" ++ kv.1 ++ "\": " ++ jsonDumps kv.2
  | kv :: kw :: xs => "\"" ++ kv.1 ++ "\": " ++ jsonDumps kv.2 ++ ", " ++ jsonDumpsObj (kw :: xs)
end

/-- Python `str(v)` as used in f-strings (container rendering approximated by
`jsonDumps`; no claim depends on the exact container text). -/
def pyStr : Json → String
  | .str s => s
  | .num n => toString n
  | .bool true => "True"
  | .bool false => "False"
  | .null => "None"
  | .arr l => jsonDumps (.arr l)
  | .obj f => jsonDumps (.obj f)

/-- Substring test over character lists. -/
def containsSub (hay pat : List Char) : Bool :=
  if pat.isPrefixOf hay then true
  else
    match hay with
    | [] => false
    | _ :: t => containsSub t pat

/-- Python `key in j`.  Objects test keys, lists test element equality with the
string, strings test substrings; numbers, booleans and `None` raise
`TypeError`. -/
def pyIn (key : String) (j : Json) : Except Unit Bool :=
  match j with
  | .obj f => .ok (hasKey f key)
  | .arr l => .ok (l.any (fun e => match e with | .str s => s == key | _ => false))
  | .str s => .ok (containsSub s.data key.data)
  | _ => .error ()

/-- Python `j[key]` with a string key: `KeyError` when missing, `TypeError`
for non-dict values. -/
def pyIndexS (j : Json) (key : String) : Except Unit Json :=
  match j with
  | .obj f =>
    match dictGet f key with
    | some v => .ok v
    | none => .error ()
  | _ => .error ()

/-- Python `j[i]` with an integer index; indexing a string yields a
one-character string. -/
def pyIndexI (j : Json) (i : Nat) : Except Unit Json :=
  match j with
  | .arr l =>
    match l.get? i with
    | some v => .ok v
    | none => .error ()
  | .str s =>
    match s.data.get? i with
    | some c => .ok (.str (String.mk [c]))
    | none => .error ()
  | _ => .error ()

/-- Python `j.get(key, dflt)`: only dicts have `.get`, anything else raises
`AttributeError`. -/
def pyGetD (j : Json) (key : String) (dflt : Json) : Except Unit Json :=
  match j with
  | .obj f => .ok ((dictGet f key).getD dflt)
  | _ => .error ()

/-- Conversation messages (role plus content). -/
structure Msg where
  role : String
  content : String
deriving DecidableEq

/-! ## tools/tool.py: reflection-derived parameter contract -/

/-- A Python type annotation, as far as `Tool._get_json_type` looks at it. -/
inductive PyHint where
  | tStr
  | tInt
  | tFloat
  | tBool
  | tList
  | tDict
  | tAny
deriving DecidableEq

/-- A parameter of an `execute` signature: its name, whether it carries a
default value (`param.default is not inspect.Parameter.empty`), and its
annotation. -/
structure PyParam where
  name : String
  hasDefault : Bool
  hint : PyHint
deriving DecidableEq

/-- tools/tool.py `Tool._get_json_type`: Python annotation to JSON-schema type
name, defaulting to "string". -/
def getJsonType : PyHint → String
  | .tStr => "string"
  | .tInt => "integer"
  | .tFloat => "number"
  | .tBool => "boolean"
  | .tList => "array"
  | .tDict => "object"
  | .tAny => "string"

/-- tools/tool.py `Tool.parameters`.  The input is the parameter list of
`inspect.signature(self.execute)`; because `self.execute` is a bound method,
Python has already removed `self` from it.  The source then slices the list
with `[1:]` (the comment next to it says it skips `self`), which drops the
first declared parameter. -/
def toolParameters (boundSig : List PyParam) : Json :=
  let ps := boundSig.drop 1
  Json.obj
    [ ("type", Json.str "object"),
      ("properties", Json.obj (ps.map (fun p =>
        (p.name, Json.obj
          [ ("type", Json.str (getJsonType p.hint)),
            ("description", Json.str ("Parameter " ++ p.name)) ])))),
      ("required", Json.arr ((ps.filter (fun p => !p.hasDefault)).map
        (fun p => Json.str p.name))) ]

/-- The bound signature of `WeatherTool.execute(self, city: str)`: Python
exposes exactly one parameter, `city`, with no default. -/
def weatherExecSig : List PyParam := [⟨"city", false, .tStr⟩]

/-! ## agent.py `_load_tools`: dynamic tool loading -/

/-- Outcome of resolving one configured tool name by naming convention:
`__import__("tools.<name>")` may raise `ImportError`, and
`getattr(module, "<Name>Tool")` may raise `AttributeError`. -/
inductive ToolResolve where
  | okR
  | noModule
  | noClass
deriving DecidableEq

/-- agent.py `ChatAgent._load_tools`: iterate the configured names in order and
instantiate each tool class.  There is no per-tool exception handling in the
source, so the first resolution failure propagates out of the whole loop. -/
def loadTools (resolve : String → ToolResolve) : List String → Except String (List String)
  | [] => .ok []
  | n :: rest =>
    match resolve n with
    | .noModule => .error ("No module named tools." ++ n)
    | .noClass => .error ("module tools." ++ n ++ " has no attribute " ++ n ++ "Tool")
    | .okR =>
      match loadTools resolve rest with
      | .error e => .error e
      | .ok ts => .ok (n :: ts)

/-- A registry in which `weather` resolves and every other tool name fails the
naming convention. -/
def resolveOnlyWeather : String → ToolResolve :=
  fun n => if n = "weather" then .okR else .noClass

/-! ## agent.py `_stream_text`: word-level re-streaming -/

/-- The whitespace characters of `str.split()` / `str.strip()` (ASCII range,
which covers every character the source produces). -/
def isWsPy (c : Char) : Bool :=
  c == ' ' || c == '\t' || c == '\n' || c == '\r' || c == '\x0b' || c == '\x0c'

/-- Python `str.strip()` over a character list. -/
def pyStripL (cs : List Char) : List Char :=
  ((cs.dropWhile isWsPy).reverse.dropWhile isWsPy).reverse

/-- Python `str.strip()`. -/
def pyStrip (s : String) : String := String.mk (pyStripL s.data)

/-- Grab the longest non-whitespace prefix and return it with the rest. -/
def takeWord : List Char → (List Char × List Char)
  | [] => ([], [])
  | c :: rest =>
    if isWsPy c then ([], c :: rest)
    else
      let p := takeWord rest
      (c :: p.1, p.2)

/-- Worker for `pySplitWs`; the fuel bounds the recursion and equals the input
length at the top-level call, which is always sufficient. -/
def splitWsAux : Nat → List Char → List (List Char)
  | _, [] => []
  | 0, _ => []
  | fuel + 1, c :: rest =>
    if isWsPy c then splitWsAux fuel rest
    else
      let p := takeWord rest
      (c :: p.1) :: splitWsAux fuel p.2

/-- Python `str.split()` with no argument: split on whitespace runs, dropping
empty words. -/
def pySplitWs (cs : List Char) : List (List Char) := splitWsAux cs.length cs

/-- Split on a single character, keeping empty segments, like
`str.split("|")`. -/
def splitOnCharAux (sep : Char) (acc : List Char) : List Char → List (List Char)
  | [] => [acc.reverse]
  | c :: rest =>
    if c == sep then acc.reverse :: splitOnCharAux sep [] rest
    else splitOnCharAux sep (c :: acc) rest

/-- Worker for `pyReplace` (leftmost, non-overlapping); fuel as above. -/
def replaceAux (old new : List Char) : Nat → List Char → List Char
  | _, [] => []
  | 0, cs => cs
  | fuel + 1, c :: cs =>
    if old.isPrefixOf (c :: cs) then new ++ replaceAux old new fuel ((c :: cs).drop old.length)
    else c :: replaceAux old new fuel cs

/-- Python `str.replace(old, new)` for a non-empty `old`. -/
def pyReplace (cs old new : List Char) : List Char := replaceAux old new cs.length cs

/-- agent.py `_stream_text`, inner word loop: every word but the last is
yielded with a trailing space (`word + (" " if i < len(words) - 1 else "")`). -/
def sentenceWordChunks : List (List Char) → List String
  | [] => []
  | [w] => [String.mk w]
  | w :: v :: rest => String.mk (w ++ [' ']) :: sentenceWordChunks (v :: rest)

/-- agent.py `_stream_text`, one iteration of the sentence loop: skip
whitespace-only sentences, emit the word chunks, then a single space when the
sentence ends in `.`/`!`/`?` and is not equal to the last sentence. -/
def streamTextSentence (lastSentence sentence : List Char) : List String :=
  if pyStripL sentence = [] then []
  else
    sentenceWordChunks (pySplitWs sentence) ++
      (match sentence.getLast? with
       | some c =>
         if (c == '.' || c == '!' || c == '?') && !(lastSentence == sentence) then [" "]
         else []
       | none => [])

/-- agent.py `ChatAgent._stream_text`: falsy text yields the fixed fallback
`"无响应"`; otherwise sentence-ending punctuation followed by a space is
rewritten with a `|` marker, the text is split on `|`, and each sentence is
emitted word by word. -/
def streamText (text : String) : List String :=
  if text = "" then ["无响应"]
  else
    let replaced :=
      pyReplace (pyReplace (pyReplace text.data
        ". ".data ".|".data) "! ".data "!|".data) "? ".data "?|".data
    let sentences := splitOnCharAux '|' [] replaced
    let lastS := (sentences.getLast?).getD []
    (sentences.map (streamTextSentence lastS)).flatten

/-! ## agent.py `_execute_tool`: argument repair, filtering, execution -/

/-- Is a JSON value a Python `str`? -/
def isStrJ : Json → Bool
  | .str _ => true
  | _ => false

/-- The values of the argument dict that are strings
(`[v for v in tool_args.values() if isinstance(v, str)]`). -/
def stringValues (d : Dict) : List Json := (d.map (fun kv => kv.2)).filter isStrJ

/-- Repair strategy 1 for one missing parameter: scan the current keys in
order for a case-insensitive match and adopt its value
(`if key.lower() == missing.lower(): tool_args[missing] = tool_args[key]`). -/
def ciAdopt (d : Dict) (m : String) : Dict :=
  match d.find? (fun kv => kv.1.toLower == m.toLower) with
  | some kv => dictSet d m kv.2
  | none => d

/-- Repair strategy 2 body: when the supplied list of string values has
exactly one element, adopt it for the missing parameter. -/
def strat2Set (a : Dict) (m : String) (sv : List Json) : Dict :=
  match sv with
  | [s] => dictSet a m s
  | _ => a

/-- One iteration of the source repair loop: strategy 1 always runs, then
strategy 2 runs under the guard `g`, counting the string values of the dict as
mutated by strategy 1. -/
def repairStepCode (g : Bool) (a : Dict) (m : String) : Dict :=
  let a1 := ciAdopt a m
  if g then strat2Set a1 m (stringValues a1) else a1

/-- agent.py `_execute_tool` repair block, exactly as written: iterate over
the initially-missing parameters; the strategy-2 guard tests the lengths of
the *original* `required_params` and `missing_params` lists (they are not
recomputed inside the loop). -/
def repairCode (required : List String) (args : Dict) : Dict :=
  let missing0 := required.filter (fun p => !(hasKey args p))
  let g := required.length == 1 && missing0.length == 1
  missing0.foldl (repairStepCode g) args

/-- The repair procedure as the specification words it: first, for each
missing parameter, adopt a case-insensitively matching key; then, only when
the tool declares exactly one required parameter, exactly one parameter is
missing, and exactly one *provided* argument value is a string, adopt that
lone string value. -/
def repairSpec (required : List String) (args : Dict) : Dict :=
  let missing0 := required.filter (fun p => !(hasKey args p))
  let a1 := missing0.foldl ciAdopt args
  if required.length == 1 && missing0.length == 1 then
    match missing0 with
    | [m] => strat2Set a1 m (stringValues args)
    | _ => a1
  else a1

/-- A loaded tool: the parameter list of the bound `execute` signature, and
the body of `execute` (an exception is an `Except.error` carrying `str(e)`). -/
structure ToolSpec where
  params : List PyParam
  body : Dict → Except String Json

/-- agent.py `_execute_tool` required-parameter extraction:
parameters with no default whose name is not `self`. -/
def requiredOf (t : ToolSpec) : List String :=
  ((t.params.filter (fun p => !p.hasDefault && !(p.name == "self"))).map
    (fun p => p.name))

/-- agent.py `_execute_tool` argument filtering: keep only keys that appear in
the signature. -/
def filterSig (t : ToolSpec) (d : Dict) : Dict :=
  d.filter (fun kv => t.params.any (fun p => p.name == kv.1))

/-- Build the `{"error": msg}` dict the source returns on failures. -/
def errObj (msg : String) : Json := Json.obj [("error", Json.str msg)]

/-- agent.py `ChatAgent._execute_tool`: unknown tool, repair, re-check,
filter, execute with the tool-body exception caught. -/
def executeToolCode (tools : String → Option ToolSpec) (name : String) (args : Dict) : Json :=
  match tools name with
  | none => errObj ("未找到工具: " ++ name)
  | some t =>
    let req := requiredOf t
    let repaired := repairCode req args
    let missing1 := req.filter (fun p => !(hasKey repaired p))
    if missing1.isEmpty then
      match t.body (filterSig t repaired) with
      | .ok r => r
      | .error e => errObj ("工具执行失败: " ++ e)
    else errObj ("工具调用缺少必要参数: " ++ String.intercalate ", " missing1)

/-- `_execute_tool` with the repair step replaced by the specification-worded
`repairSpec`; everything else (lookup, re-check with the comma-joined failure
message, filtering, execution) is shared with the source so that the two
functions differ exactly where the repair claims differ. -/
def executeToolSpecModel (tools : String → Option ToolSpec) (name : String) (args : Dict) : Json :=
  match tools name with
  | none => errObj ("未找到工具: " ++ name)
  | some t =>
    let req := requiredOf t
    let repaired := repairSpec req args
    let missing1 := req.filter (fun p => !(hasKey repaired p))
    if missing1.isEmpty then
      match t.body (filterSig t repaired) with
      | .ok r => r
      | .error e => errObj ("工具执行失败: " ++ e)
    else errObj ("工具调用缺少必要参数: " ++ String.intercalate ", " missing1)

/-- A concrete one-required-parameter tool whose body always raises. -/
def raisingSpec : ToolSpec := ⟨[⟨"x", false, .tAny⟩], fun _ => .error "kaput"⟩

/-- A registry exposing `raisingSpec` under every name. -/
def raisingTools : String → Option ToolSpec := fun _ => some raisingSpec

/-! ## providers/base.py `_extract_tool_calls`: shared tool-call extraction -/

/-- An SDK `function` object (`.name` / `.arguments`). -/
structure SdkFunction where
  name : String
  arguments : String

/-- An SDK tool-call object.  `id = none` models a missing/None attribute (the
source treats both through `getattr(..., default)` or `or`); `function = none`
models a `None` function attribute, whose `.name` access raises. -/
structure SdkToolCall where
  id : Option String
  function : Option SdkFunction

/-- An SDK chat message: `tool_calls` is absent/None (`none`) or a list. -/
structure SdkMessage where
  toolCalls : Option (List SdkToolCall)

/-- An SDK non-streaming choice. -/
structure SdkChoice where
  message : SdkMessage

/-- An SDK non-streaming response object. -/
structure SdkResponse where
  choices : List SdkChoice

/-- The possible shapes of `response_data` received by
`BaseProvider._extract_tool_calls`: `None`, an SDK object with a `choices`
attribute, a JSON dict, or any other object (no `choices` attribute, not a
dict). -/
inductive RespData where
  | pyNone
  | sdk (r : SdkResponse)
  | jsonDict (j : Json)
  | otherObj

/-- SDK branch of `_extract_tool_calls`: one entry per tool call with
`getattr(tool_call, "id", f"call_{i}")`; accessing `.function.name` on a
`None` function raises, which the enclosing `try` turns into `None`. -/
def extractEntriesSdk (i : Nat) : List SdkToolCall → Except Unit (List Json)
  | [] => .ok []
  | tc :: rest =>
    match tc.function with
    | none => .error ()
    | some f =>
      match extractEntriesSdk (i + 1) rest with
      | .error _ => .error ()
      | .ok es =>
        .ok (Json.obj
          [ ("id", .str ((tc.id).getD ("call_" ++ toString i))),
            ("name", .str f.name),
            ("arguments", .str f.arguments) ] :: es)

/-- Dict branch of `_extract_tool_calls`, one entry: `.get("id", f"call_{i}")`
(raises on a non-dict entry), then either the `function` sub-dict (skipping
the entry when the name is falsy, raising when `function` is not a dict) or
the fallback `name`/`arguments` keys. -/
def extractEntryDict (i : Nat) (tc : Json) : Except Unit (Option Json) :=
  match tc with
  | .obj tf =>
    match dictGet tf "function" with
    | some (.obj ff) =>
      match dictGet ff "name" with
      | none => .ok none
      | some nv =>
        if pyTruthy nv then
          .ok (some (.obj
            [ ("id", (dictGet tf "id").getD (.str ("call_" ++ toString i))),
              ("name", nv),
              ("arguments", (dictGet ff "arguments").getD (.str (lbraceS ++ rbraceS))) ]))
        else .ok none
    | some _ => .error ()
    | none =>
      .ok (some (.obj
        [ ("id", (dictGet tf "id").getD (.str ("call_" ++ toString i))),
          ("name", (dictGet tf "name").getD (.str ("unknown_tool_" ++ toString i))),
          ("arguments", (dictGet tf "arguments").getD (.str (lbraceS ++ rbraceS))) ]))
  | _ => .error ()

/-- Dict branch of `_extract_tool_calls`, the `for i, tool_call in
enumerate(tool_calls)` loop; a raise anywhere discards everything. -/
def extractEntriesDict (i : Nat) : List Json → Except Unit (List Json)
  | [] => .ok []
  | tc :: rest =>
    match extractEntryDict i tc with
    | .error _ => .error ()
    | .ok none => extractEntriesDict (i + 1) rest
    | .ok (some e) =>
      match extractEntriesDict (i + 1) rest with
      | .error _ => .error ()
      | .ok es => .ok (e :: es)

/-- Package the loop result: `try`-caught raise or an empty entry list give
`None` (`if result: return {"tool_calls": result}` falls through to
`return None`). -/
def mkToolCallsResult : Except Unit (List Json) → Option Json
  | .error _ => none
  | .ok [] => none
  | .ok (e :: es) => some (.obj [("tool_calls", .arr (e :: es))])

/-- Dict branch of `_extract_tool_calls` (guard chain of isinstance/key tests;
every failing or raising shape ends in `None` through the enclosing `try`). -/
def extractToolCallsJson (rd : Json) : Option Json :=
  match rd with
  | .obj fields =>
    match dictGet fields "choices" with
    | some (.arr (c0 :: _)) =>
      match c0 with
      | .obj c0f =>
        match dictGet c0f "message" with
        | some (.obj mf) =>
          match dictGet mf "tool_calls" with
          | some (.arr tcs) =>
            if tcs.isEmpty then none
            else mkToolCallsResult (extractEntriesDict 0 tcs)
          | some _ => none
          | none => none
        | some _ => none
        | none => none
      | _ => none
    | some _ => none
    | none => none
  | _ => none

/-- providers/base.py `BaseProvider._extract_tool_calls`: `None` in, SDK
object, dict, or anything else; the whole body is wrapped in
`try ... except: return None`. -/
def extractToolCalls : RespData → Option Json
  | .pyNone => none
  | .sdk r =>
    match r.choices with
    | [] => none
    | c0 :: _ =>
      match c0.message.toolCalls with
      | none => none
      | some [] => none
      | some (t :: ts) =>
        match extractEntriesSdk 0 (t :: ts) with
        | .error _ => none
        | .ok es => some (.obj [("tool_calls", .arr es)])
  | .jsonDict j => extractToolCallsJson j
  | .otherObj => none

/-- Does a JSON value carry the three keys of a normalised tool-call entry? -/
def entryHasKeys (e : Json) : Bool :=
  match e with
  | .obj f => hasKey f "id" && hasKey f "name" && hasKey f "arguments"
  | _ => false

/-- Shape contract of the extractor result: `None`, or a dict whose sole key
`tool_calls` holds a non-empty list of entries that all carry
`id`/`name`/`arguments`. -/
def wellShapedExtract : Option Json → Bool
  | none => true
  | some (.obj [("tool_calls", .arr entries)]) =>
    !entries.isEmpty && entries.all entryHasKeys
  | some _ => false

/-! ## Streaming adapters: modelscope.py, openai_compatible.py, openai.py -/

/-- One value yielded by a stream generator, tagged with whether the source
yielded it on its error path (`yield {"error": ...}`) or as delta content. -/
structure ChunkOut where
  val : Json
  isErr : Bool

/-- The observable execution of one Python generator: the values it yielded in
order, the value of an early `return expr` (invisible to a `for` loop over the
generator), and whether an uncaught exception ended the iteration. -/
structure GenRun where
  chunks : List ChunkOut
  ret : Option Json
  raised : Option String

/-- One line of the SSE body as the source classifies it: empty, not a
`data: ` line, the `[DONE]` marker, a line whose payload fails `json.loads`
(the `except json.JSONDecodeError: pass` path), or a parsed JSON payload. -/
inductive SseItem where
  | blank
  | nonData
  | doneMark
  | badJson
  | jsonLine (j : Json)

/-- Build the `{"tool_calls": [{...}]}` dict the stream generator `return`s
when a delta carries tool calls: `delta["tool_calls"][0]`, then
`.get("id", "call_0")` and the `function` name/arguments lookups; any of these
may raise. -/
def sseToolCallReturn (delta : Json) : Except Unit Json := do
  let tcl ← pyIndexS delta "tool_calls"
  let tc0 ← pyIndexI tcl 0
  let idv ← pyGetD tc0 "id" (.str "call_0")
  let fv ← pyIndexS tc0 "function"
  let nv ← pyIndexS fv "name"
  let av ← pyIndexS fv "arguments"
  pure (Json.obj [("tool_calls", .arr [Json.obj
    [("id", idv), ("name", nv), ("arguments", av)]])])

/-- What one parsed SSE payload makes the generator do. -/
inductive SseStep where
  | skipLine
  | yieldContent (v : Json)
  | retToolCalls (v : Json)
  | raiseStep

/-- The body of the `for line in response.iter_lines()` loop of
modelscope.py / openai_compatible.py `stream_response` for one parsed payload:
`if "choices" in json_data and json_data["choices"]:`, then
`delta = json_data["choices"][0].get("delta", {})`, then the
`tool_calls`-in-delta early return, then the truthy-content yield.  Only
`json.JSONDecodeError` is caught in the source, so every other raise ends the
generator. -/
def sseJsonStep (j : Json) : SseStep :=
  match pyIn "choices" j with
  | .error _ => .raiseStep
  | .ok false => .skipLine
  | .ok true =>
    match pyIndexS j "choices" with
    | .error _ => .raiseStep
    | .ok cj =>
      if pyTruthy cj = false then .skipLine
      else
        match pyIndexI cj 0 with
        | .error _ => .raiseStep
        | .ok c0 =>
          match pyGetD c0 "delta" (Json.obj []) with
          | .error _ => .raiseStep
          | .ok delta =>
            match pyIn "tool_calls" delta with
            | .error _ => .raiseStep
            | .ok true =>
              match sseToolCallReturn delta with
              | .ok v => .retToolCalls v
              | .error _ => .raiseStep
            | .ok false =>
              match pyIn "content" delta with
              | .error _ => .raiseStep
              | .ok true =>
                match pyIndexS delta "content" with
                | .error _ => .raiseStep
                | .ok cv => if pyTruthy cv then .yieldContent cv else .skipLine
              | .ok false => .skipLine

/-- Run the SSE line loop of `stream_response` (identical in modelscope.py and
openai_compatible.py).  The exception text is abstracted as "exception". -/
def runSseLines : List SseItem → GenRun
  | [] => ⟨[], none, none⟩
  | .blank :: rest => runSseLines rest
  | .nonData :: rest => runSseLines rest
  | .doneMark :: _ => ⟨[], none, none⟩
  | .badJson :: rest => runSseLines rest
  | .jsonLine j :: rest =>
    match sseJsonStep j with
    | .skipLine => runSseLines rest
    | .raiseStep => ⟨[], none, some "exception"⟩
    | .retToolCalls v => ⟨[], some v, none⟩
    | .yieldContent v =>
      let r := runSseLines rest
      ⟨⟨v, false⟩ :: r.chunks, r.ret, r.raised⟩

/-- `stream_response` as a whole: a non-200 streaming status yields a single
`{"error": ...}` chunk; otherwise the SSE loop runs. -/
def sseStreamRun (status : Nat) (items : List SseItem) : GenRun :=
  if status = 200 then runSseLines items
  else ⟨[⟨errObj ("API错误: " ++ toString status), true⟩], none, none⟩

/-- Outcome of the pre-flight (non-streaming probe) request:
`requests.post` raised, or an HTTP response with a status, a body text, and
the outcome of `.json()` on it. -/
inductive Preflight where
  | exnReq (msg : String)
  | httpResp (status : Nat) (bodyText : String) (parsed : Except String Json)

/-- What a `generate_response(..., stream=True)` call hands its caller:
an `{"error": ...}` dict, a `{"tool_calls": ...}` dict, or a generator. -/
inductive AdapterResult where
  | errDict (msg : String)
  | toolCallsDict (j : Json)
  | streamGen (run : GenRun)

/-- First 100 characters, Python `text[:100]`. -/
def strTake (s : String) (n : Nat) : String := String.mk (s.data.take n)

/-- providers/modelscope.py `generate_response` with `stream=True`: the probe
request is wrapped in its own `try` returning `{"error": f"请求失败: ..."}`;
a non-200 probe status returns an error dict; a probe tool call is returned
directly; otherwise the stream generator is returned. -/
def modelscopeGenerateStream (pre : Preflight) (streamStatus : Nat)
    (items : List SseItem) : AdapterResult :=
  match pre with
  | .exnReq m => .errDict ("请求失败: " ++ m)
  | .httpResp status bodyText parsed =>
    if status = 200 then
      match parsed with
      | .error m => .errDict ("请求失败: " ++ m)
      | .ok j =>
        match extractToolCallsJson j with
        | some tcj => .toolCallsDict tcj
        | none => .streamGen (sseStreamRun streamStatus items)
    else .errDict ("API错误: " ++ toString status ++ " - " ++ strTake bodyText 100)

/-- providers/openai_compatible.py `generate_response` with `stream=True`: the
probe request is only consulted when its status is 200 (a non-200 probe falls
through to streaming); exceptions land in the outer `try` of
`generate_response`. -/
def openaiCompatGenerateStream (pre : Preflight) (streamStatus : Nat)
    (items : List SseItem) : AdapterResult :=
  match pre with
  | .exnReq m => .errDict ("OpenAI兼容API错误: " ++ m)
  | .httpResp status _ parsed =>
    if status = 200 then
      match parsed with
      | .error m => .errDict ("OpenAI兼容API错误: " ++ m)
      | .ok j =>
        match extractToolCallsJson j with
        | some tcj => .toolCallsDict tcj
        | none => .streamGen (sseStreamRun streamStatus items)
    else .streamGen (sseStreamRun streamStatus items)

/-- An SDK streaming delta: `tool_calls` and `content` attributes
(`none` models an absent/None attribute for the source `hasattr`/truthiness
tests). -/
structure SdkDelta where
  toolCalls : Option (List SdkToolCall)
  content : Option String

/-- An SDK streaming choice. -/
structure SdkStreamChoice where
  delta : SdkDelta
  finishReason : Option String

/-- An SDK streaming chunk. -/
structure SdkChunk where
  choices : List SdkStreamChoice

/-- openai.py collection loop: append chunks until one has
`finish_reason == "tool_calls"`; `chunk.choices[0]` on an empty `choices`
raises `IndexError`.  Returns the last collected chunk
(`tool_call_chunks[-1]`). -/
def collectToolChunks (cur : SdkChunk) : List SdkChunk → Except Unit SdkChunk
  | [] => .ok cur
  | c :: cs =>
    match c.choices with
    | [] => .error ()
    | ch :: _ =>
      if ch.finishReason == some "tool_calls" then .ok c
      else collectToolChunks c cs

/-- openai.py entry construction over the last chunk:
`tool_call.id or f"call_{i}"` (so a None or empty id falls back), and a `None`
`function` raises. -/
def buildOpenaiEntries (i : Nat) : List SdkToolCall → Except Unit (List Json)
  | [] => .ok []
  | tc :: rest =>
    match tc.function with
    | none => .error ()
    | some f =>
      let idv :=
        match tc.id with
        | some s => if s == "" then "call_" ++ toString i else s
        | none => "call_" ++ toString i
      match buildOpenaiEntries (i + 1) rest with
      | .error _ => .error ()
      | .ok es =>
        .ok (Json.obj [("id", .str idv), ("name", .str f.name),
                       ("arguments", .str f.arguments)] :: es)

/-- openai.py `generate_stream` over the chunks after the first: yield
truthy delta content; an empty `choices` raises `IndexError` inside the
generator (second component). -/
def openaiRestRun : List SdkChunk → List ChunkOut × Option String
  | [] => ([], none)
  | c :: cs =>
    match c.choices with
    | [] => ([], some "exception")
    | ch :: _ =>
      match ch.delta.content with
      | some s =>
        if s == "" then openaiRestRun cs
        else
          let p := openaiRestRun cs
          (⟨.str s, false⟩ :: p.1, p.2)
      | none => openaiRestRun cs

/-- providers/openai.py `generate_response` with `stream=True`: the request
may raise; an empty stream is `StopIteration`; the first chunk decides
between the tool-call collection branch (which yields nothing) and
`generate_stream` (which yields only content and never reports a tool
call). -/
def openaiGenerateStream (req : Except String (List SdkChunk)) : AdapterResult :=
  match req with
  | .error m => .errDict ("流式请求错误: " ++ m)
  | .ok [] => .errDict "流式请求没有返回任何数据"
  | .ok (first :: rest) =>
    match first.choices with
    | [] => .errDict "流式请求错误: list index out of range"
    | c0 :: _ =>
      match c0.delta.toolCalls with
      | some _ =>
        match collectToolChunks first rest with
        | .error _ => .errDict "流式请求错误: list index out of range"
        | .ok lastC =>
          match lastC.choices with
          | [] => .errDict "流式请求错误: list index out of range"
          | lc :: _ =>
            match lc.delta.toolCalls with
            | none => .errDict "流式请求错误: NoneType object is not iterable"
            | some tcs =>
              match buildOpenaiEntries 0 tcs with
              | .error _ => .errDict "流式请求错误: NoneType has no attribute name"
              | .ok entries => .toolCallsDict (Json.obj [("tool_calls", .arr entries)])
      | none =>
        let p := openaiRestRun rest
        .streamGen
          ⟨(match c0.delta.content with
            | some s => if s == "" then [] else [⟨.str s, false⟩]
            | none => []) ++ p.1, none, p.2⟩

/-- The content chunks a caller iterating the result receives: nothing from a
returned dict; from a generator, the values yielded on the content path. -/
def deliveredContent : AdapterResult → List Json
  | .errDict _ => []
  | .toolCallsDict _ => []
  | .streamGen run => (run.chunks.filter (fun c => !c.isErr)).map (fun c => c.val)

/-- The tool-call results the adapter reports to its caller: only a directly
returned `{"tool_calls": ...}` dict.  A generator never reports one: the
source `return {"tool_calls": ...}` inside `stream_response` ends the
iteration and its value is invisible to the `for` loop consuming it. -/
def reportedToolCalls : AdapterResult → List Json
  | .errDict _ => []
  | .toolCallsDict j => [j]
  | .streamGen _ => []

/-! ## providers/base.py `_split_multiple_responses`: multi-answer splitting

The six regular expressions of the source are implemented directly.  For each
of them the greedy left-to-right attempt is deterministic (no quantifier can
trade characters with its successor), so a single pass per position is exactly
the Python `re` behaviour.  `\d` and `\s` are modelled over ASCII, which covers
all characters the patterns themselves mention. -/

/-- ASCII decimal digit, the `\d` of the source patterns. -/
def isDigitA (c : Char) : Bool := '0' ≤ c && c ≤ '9'

/-- Consume `\d+`: at least one digit, greedily. -/
def eatDigits1 : List Char → Option (List Char)
  | c :: rest => if isDigitA c then some (rest.dropWhile isDigitA) else none
  | [] => none

/-- Consume `[:：]`. -/
def eatColon : List Char → Option (List Char)
  | c :: rest => if c == ':' || c == '：' then some rest else none
  | [] => none

/-- Consume a literal. -/
def litPref (lit cs : List Char) : Option (List Char) :=
  if lit.isPrefixOf cs then some (cs.drop lit.length) else none

/-- The six multi-answer patterns, in the priority order of the source list:
`问题\s*\d+[:：]`, `回答\s*\d+[:：]`, `问题\s*\(?\d+\)?[:：]`,
`回答\s*\(?\d+\)?[:：]`, `\d+\.\s*问[:：]`, `\d+\.\s*答[:：]`. -/
inductive Pat where
  | p1
  | p2
  | p3
  | p4
  | p5
  | p6
deriving DecidableEq

/-- Try to match a pattern at the head of `cs`; returns the rest after the
match.  A successful match always consumes at least one character. -/
def tryMatch (p : Pat) (cs : List Char) : Option (List Char) :=
  match p with
  | .p1 =>
    (litPref ['问', '题'] cs).bind (fun r1 =>
      (eatDigits1 (r1.dropWhile isWsPy)).bind eatColon)
  | .p2 =>
    (litPref ['回', '答'] cs).bind (fun r1 =>
      (eatDigits1 (r1.dropWhile isWsPy)).bind eatColon)
  | .p3 =>
    (litPref ['问', '题'] cs).bind (fun r1 =>
      let r2 := r1.dropWhile isWsPy
      let r2b := match r2 with | '(' :: t => t | _ => r2
      (eatDigits1 r2b).bind (fun r3 =>
        let r3b := match r3 with | ')' :: t => t | _ => r3
        eatColon r3b))
  | .p4 =>
    (litPref ['回', '答'] cs).bind (fun r1 =>
      let r2 := r1.dropWhile isWsPy
      let r2b := match r2 with | '(' :: t => t | _ => r2
      (eatDigits1 r2b).bind (fun r3 =>
        let r3b := match r3 with | ')' :: t => t | _ => r3
        eatColon r3b))
  | .p5 =>
    (eatDigits1 cs).bind (fun r1 =>
      (litPref ['.'] r1).bind (fun r2 =>
        (litPref ['问'] (r2.dropWhile isWsPy)).bind eatColon))
  | .p6 =>
    (eatDigits1 cs).bind (fun r1 =>
      (litPref ['.'] r1).bind (fun r2 =>
        (litPref ['答'] (r2.dropWhile isWsPy)).bind eatColon))

/-- Scan for non-overlapping leftmost matches, producing both `re.findall`
(first component) and `re.split` (second component) of the pattern.  The fuel
is the input length, sufficient because every match consumes a character. -/
def reScan (p : Pat) : Nat → List Char → List Char → List String × List String
  | _, [], acc => ([], [String.mk acc.reverse])
  | 0, rest, acc => ([], [String.mk (acc.reverse ++ rest)])
  | fuel + 1, c :: cs, acc =>
    match tryMatch p (c :: cs) with
    | some rest =>
      let matched := (c :: cs).take ((c :: cs).length - rest.length)
      let pr := reScan p fuel rest []
      (String.mk matched :: pr.1, String.mk acc.reverse :: pr.2)
    | none => reScan p fuel cs (c :: acc)

/-- `re.findall(p, s)`. -/
def reFindAll (p : Pat) (s : String) : List String :=
  (reScan p s.data.length s.data []).1

/-- `re.split(p, s)` (the patterns contain no capture groups). -/
def reSplit (p : Pat) (s : String) : List String :=
  (reScan p s.data.length s.data []).2

/-- Split on a multi-character separator, like `str.split("\n\n")`; fuel as in
`reScan`. -/
def splitSubAux (sep : List Char) : Nat → List Char → List Char → List (List Char)
  | _, acc, [] => [acc.reverse]
  | 0, acc, rest => [acc.reverse ++ rest]
  | fuel + 1, acc, c :: rest =>
    if sep.isPrefixOf (c :: rest) then
      acc.reverse :: splitSubAux sep fuel [] ((c :: rest).drop sep.length)
    else splitSubAux sep fuel (c :: acc) rest

/-- Python `str.split(sep)` for a non-empty separator. -/
def pySplitSub (cs sep : List Char) : List (List Char) :=
  splitSubAux sep cs.length [] cs

/-- The blank-line fallback of `_split_multiple_responses`:
`[p.strip() for p in content.split("\n\n") if p.strip()]`. -/
def paragraphsOf (content : String) : List String :=
  ((pySplitSub content.data ['\n', '\n']).map (fun l => pyStrip (String.mk l))).filter
    (fun s => !(s == ""))

/-- The loop re-attaching separators: `matches[i] + part.strip()` while
matches remain, then bare `part.strip()`. -/
def addBack : List String → List String → List String
  | _, [] => []
  | [], part :: ps => pyStrip part :: addBack [] ps
  | m :: ms, part :: ps => (m ++ pyStrip part) :: addBack ms ps

/-- Splitting on the first pattern that matched more than once: drop a
whitespace-only leading part, then re-attach the separators. -/
def splitViaPattern (p : Pat) (content : String) : List String :=
  let found := reFindAll p content
  let parts0 := reSplit p content
  let parts :=
    match parts0 with
    | x :: rest => if pyStrip x == "" then rest else parts0
    | [] => parts0
  addBack found parts

/-- The priority-ordered pattern list of the source. -/
def patList : List Pat := [.p1, .p2, .p3, .p4, .p5, .p6]

/-- providers/base.py `BaseProvider._split_multiple_responses` (the copy in
openai_compatible.py is textually identical): first pattern with more than one
match wins; otherwise split on blank-line paragraphs when more than one
results; otherwise the whole text as a single element. -/
def splitMultipleResponses (content : String) : List String :=
  match patList.find? (fun p => (reFindAll p content).length > 1) with
  | some p => splitViaPattern p content
  | none =>
    if (paragraphsOf content).length > 1 then paragraphsOf content
    else [content]

/-- Eleven blank-line-separated paragraphs with no pattern match. -/
def elevenParas : String :=
  "a\n\nb\n\nc\n\nd\n\ne\n\nf\n\ng\n\nh\n\ni\n\nj\n\nk"

/-- A reply with two `问题N:` markers whose first split element keeps an
embedded blank line. -/
def multiQContent : String := "问题1: A\n\nB 问题2: C"

/-- The first element `_split_multiple_responses` produces for
`multiQContent`. -/
def multiQElem : String := "问题1:A\n\nB"

/-! ## agent.py `_handle_tool_call` and `run`: the conversation orchestrator -/

/-- One tool-call entry as the providers hand it to the orchestrator:
`id` as stored (any JSON value), a string `name`, and the `arguments` value
(parsed with `json.loads` first when it is a string). -/
structure TCEntry where
  id : Json
  name : String
  arguments : Json

/-- The progress line `[工具调用 i+1/n] 使用工具: name`. -/
def toolHeader (i n : Nat) (name : String) : String :=
  "[工具调用 " ++ toString (i + 1) ++ "/" ++ toString n ++ "] 使用工具: " ++ name ++ "\n"

/-- A recorded tool result, one element of the source `tool_results` list. -/
structure TRecord where
  rid : Json
  rname : String
  rargs : Json
  result : Json
  success : Bool

/-- `_handle_tool_call` body for one parsed (post-`json.loads`) argument
value: non-dict arguments raise `ValueError`, caught by the generic `except`;
a result dict carrying `error` is recorded as a failure; otherwise success.
The inter-call separator is emitted on the non-exception paths when the call
is not the last one. -/
def processParsed (tools : String → Option ToolSpec) (isLast : Bool)
    (c : TCEntry) (tid : Json) (header : Json) (j : Json) : List Json × TRecord :=
  let sep : List Json := if isLast then [] else [Json.str "\n---\n\n"]
  match j with
  | .obj d =>
    let paramChunk := Json.str ("[工具参数] " ++ jsonDumps (Json.obj d) ++ "\n")
    let result := executeToolCode tools c.name d
    match result with
    | .obj rf =>
      if hasKey rf "error" then
        let emsg := "[工具执行错误] " ++ pyStr ((dictGet rf "error").getD .null)
        ([header, paramChunk, .str (emsg ++ "\n")] ++ sep,
         ⟨tid, c.name, .obj d, .str emsg, false⟩)
      else
        ([header, paramChunk, .str ("[工具结果] " ++ pyStr (.obj rf) ++ "\n")] ++ sep,
         ⟨tid, c.name, .obj d, .obj rf, true⟩)
    | r =>
      ([header, paramChunk, .str ("[工具结果] " ++ pyStr r ++ "\n")] ++ sep,
       ⟨tid, c.name, .obj d, r, true⟩)
  | other =>
    let em := "工具执行失败: 工具参数不是有效的JSON字典"
    ([header, .str ("[错误] " ++ em ++ "\n")],
     ⟨tid, c.name, other, .str em, false⟩)

/-- `_handle_tool_call` body for one entry: the header is yielded before the
per-call `try`; a string argument that fails `json.loads` is recorded as a
parse failure (`except json.JSONDecodeError`). -/
def processOne (tools : String → Option ToolSpec) (parse : String → Option Json)
    (n i : Nat) (isLast : Bool) (c : TCEntry) : List Json × TRecord :=
  let header := Json.str (toolHeader i n c.name)
  match c.arguments with
  | .str s =>
    match parse s with
    | none =>
      let em := "工具参数解析失败，非法的 JSON 格式: " ++ s
      ([header, .str ("[错误] " ++ em ++ "\n")],
       ⟨c.id, c.name, .str s, .str em, false⟩)
    | some j => processParsed tools isLast c c.id header j
  | j => processParsed tools isLast c c.id header j

/-- The `for i, tool_call in enumerate(tool_calls)` loop: every entry is
processed and recorded in order; no branch aborts the loop. -/
def processCalls (tools : String → Option ToolSpec) (parse : String → Option Json)
    (nTotal : Nat) : Nat → List TCEntry → List Json × List TRecord
  | _, [] => ([], [])
  | i, c :: rest =>
    let pr := processOne tools parse nTotal i rest.isEmpty c
    let prs := processCalls tools parse nTotal (i + 1) rest
    (pr.1 ++ prs.1, pr.2 :: prs.2)

/-- The `tool_results` list `_handle_tool_call` accumulates. -/
def handleRecords (tools : String → Option ToolSpec) (parse : String → Option Json)
    (calls : List TCEntry) : List TRecord :=
  (processCalls tools parse calls.length 0 calls).2

/-- agent.py `ChatAgent._handle_tool_call`: guard for an empty tool-call list,
the per-call loop, the `[模型回复] ` marker, then the second (non-streaming)
generation; its result, when it is a string, is re-streamed word by word and
appended to the history as one assistant message.  The consolidated summary
prompt only feeds that second call and is represented by the `summary`
parameter. -/
def handleToolCall (tools : String → Option ToolSpec) (parse : String → Option Json)
    (calls : List TCEntry) (summary : Option String) : List Json × Option Msg :=
  if calls.isEmpty then ([Json.str "未找到有效的工具调用"], none)
  else
    let pr := processCalls tools parse calls.length 0 calls
    let pre := pr.1 ++ [Json.str "[模型回复] "]
    match summary with
    | some s =>
      (pre ++ (streamText s).map Json.str,
       some ⟨"assistant", "[工具调用结果]\n" ++ s⟩)
    | none => (pre ++ [Json.str "已完成工具调用，但无法生成综合回复。"], none)

/-- What `generate_response` can hand `run` (LLM.py passes the provider value
through, turning its own exceptions into an error dict). -/
inductive ProviderResp where
  | errD (msg : String)
  | toolCallsD (calls : List TCEntry)
  | multiD (rs : List String)
  | streamG (run : GenRun)
  | txt (s : String)

/-- `"".join(full_response)`: defined only when every collected chunk is a
string (a non-string chunk makes the Python `join` raise `TypeError`). -/
def joinStrChunks : List Json → Option String
  | [] => some ""
  | .str s :: rest => (joinStrChunks rest).map (fun t => s ++ t)
  | _ :: _ => none

/-- The chunks of the `multi_responses` branch:
`回复 i+1/n:\n...\n\n` per answer. -/
def multiChunks (n : Nat) : Nat → List String → List Json
  | _, [] => []
  | i, r :: rest =>
    Json.str ("回复 " ++ toString (i + 1) ++ "/" ++ toString n ++ ":\n" ++ r ++ "\n\n") ::
      multiChunks n (i + 1) rest

/-- Convert a yielded `{"tool_calls": [...]}` dict back into entries for
`_handle_tool_call`.  The source would cross this boundary untyped; entries on
which it would raise (`tool_call["name"]` missing or not a string,
`tool_call["arguments"]` missing) are mapped to `none`, which the stream loop
treats as a crash of the turn. -/
def entryList : Nat → List Json → Option (List TCEntry)
  | _, [] => some []
  | i, .obj ef :: rest =>
    match dictGet ef "name", dictGet ef "arguments" with
    | some (.str nm), some av =>
      (entryList (i + 1) rest).map
        (fun es => ⟨(dictGet ef "id").getD (.str ("call_" ++ toString i)), nm, av⟩ :: es)
    | _, _ => none
  | _, _ :: _ => none

/-- See `entryList`. -/
def entriesOfJson (j : Json) : Option (List TCEntry) :=
  match j with
  | .obj f =>
    match dictGet f "tool_calls" with
    | some (.arr l) => entryList 0 l
    | _ => none
  | _ => none

/-- The messages a stream-branch ending appends plus its chunks; `hist` holds
messages to append, `crashed` marks an uncaught exception of `run` itself. -/
structure RunOut where
  chunks : List Json
  hist : List Msg
  crashed : Bool

/-- agent.py `run` step 7, the `for chunk in response` loop: an `{"error"}`
dict chunk emits one error chunk and ends the turn; a `{"tool_calls"}` dict
chunk is dispatched to `_handle_tool_call`; truthy chunks are collected and
relayed.  On a generator exception the collected content is re-emitted joined
(or an error message if nothing was collected); afterwards step 8 appends the
joined content as one assistant message. -/
def streamLoop (tools : String → Option ToolSpec) (parse : String → Option Json)
    (summary : Option String) (raised : Option String) :
    List ChunkOut → List Json → RunOut
  | [], acc =>
    match raised with
    | some e =>
      if acc.isEmpty then ⟨[Json.str ("生成回复时出错: " ++ e)], [], false⟩
      else
        match joinStrChunks acc with
        | some s => ⟨[Json.str s], [⟨"assistant", s⟩], false⟩
        | none => ⟨[], [], true⟩
    | none =>
      if acc.isEmpty then ⟨[], [], false⟩
      else
        match joinStrChunks acc with
        | some s => ⟨[], [⟨"assistant", s⟩], false⟩
        | none => ⟨[], [], true⟩
  | ch :: rest, acc =>
    match ch.val with
    | .obj f =>
      if hasKey f "error" then
        ⟨[Json.str ("错误: " ++ pyStr ((dictGet f "error").getD .null))], [], false⟩
      else if hasKey f "tool_calls" then
        match entriesOfJson (.obj f) with
        | some entries =>
          let h := handleToolCall tools parse entries summary
          ⟨h.1, (h.2.map (fun m => [m])).getD [], false⟩
        | none => ⟨[], [], true⟩
      else
        if pyTruthy (.obj f) then
          let r := streamLoop tools parse summary raised rest (acc ++ [Json.obj f])
          ⟨Json.obj f :: r.chunks, r.hist, r.crashed⟩
        else streamLoop tools parse summary raised rest acc
    | v =>
      if pyTruthy v then
        let r := streamLoop tools parse summary raised rest (acc ++ [v])
        ⟨v :: r.chunks, r.hist, r.crashed⟩
      else streamLoop tools parse summary raised rest acc

/-- agent.py `ChatAgent.run`: the user message is appended to the history
first; then the provider reply is dispatched on its shape.  The second
generation request of the tool branch is the `summary` parameter. -/
def agentRun (tools : String → Option ToolSpec) (parse : String → Option Json)
    (hist : List Msg) (prompt : String) (resp : ProviderResp)
    (summary : Option String) : RunOut :=
  let hist1 := hist ++ [⟨"user", prompt⟩]
  match resp with
  | .errD m => ⟨[Json.str ("错误: " ++ m)], hist1, false⟩
  | .toolCallsD calls =>
    let h := handleToolCall tools parse calls summary
    ⟨h.1, hist1 ++ (h.2.map (fun m => [m])).getD [], false⟩
  | .multiD rs =>
    ⟨multiChunks rs.length 0 rs,
     hist1 ++ [⟨"assistant", String.intercalate "\n\n" rs⟩], false⟩
  | .streamG run =>
    let r := streamLoop tools parse summary run.raised run.chunks []
    ⟨r.chunks, hist1 ++ r.hist, r.crashed⟩
  | .txt s =>
    if s == "" then ⟨[Json.str "我没有找到相关的回答。"], hist1, false⟩
    else ⟨[Json.str s], hist1 ++ [⟨"assistant", s⟩], false⟩

/-- An empty tool registry. -/
def noTools : String → Option ToolSpec := fun _ => none

/-- A `json.loads` stand-in that always fails (never consulted by the error
branch). -/
def noParse : String → Option Json := fun _ => none

/-! ## Helper lemmas -/

theorem foldl_fun_congr {α β : Type} (f g : α → β → α) (h : ∀ a b, f a b = g a b) :
    ∀ (l : List β) (init : α), l.foldl f init = l.foldl g init := by
  intro l
  induction l with
  | nil => intro init; rfl
  | cons x xs ih =>
    intro init
    rw [List.foldl_cons, List.foldl_cons, h, ih]

theorem map_update_id : ∀ (d : Dict) (k : String) (v : Json), hasKey d k = false →
    d.map (fun kv => if kv.1 == k then (k, v) else kv) = d := by
  intro d k v
  induction d with
  | nil => intro _; rfl
  | cons p rest ih =>
    intro h
    simp only [hasKey, List.any_cons, Bool.or_eq_false_iff] at h
    have h2 : hasKey rest k = false := h.2
    have hpk : (if p.1 == k then ((k, v) : String × Json) else p) = p := by
      rw [h.1]; rfl
    rw [List.map_cons, hpk, ih h2]

theorem dictSet_not_mem (d : Dict) (k : String) (v : Json) (h : hasKey d k = false) :
    dictSet d k v = d ++ [(k, v)] := by
  simp [dictSet, h]

theorem hasKey_append_self (d : Dict) (k : String) (v : Json) :
    hasKey (d ++ [(k, v)]) k = true := by
  simp [hasKey]

theorem dictSet_append_same (d : Dict) (k : String) (v : Json) (h : hasKey d k = false) :
    dictSet (d ++ [(k, v)]) k v = d ++ [(k, v)] := by
  unfold dictSet
  rw [hasKey_append_self, if_pos rfl, List.map_append, map_update_id d k v h]
  congr 1
  simp

theorem stringValues_append (d : Dict) (k : String) (v : Json) :
    stringValues (d ++ [(k, v)]) = stringValues d ++ (if isStrJ v then [v] else []) := by
  unfold stringValues
  rw [List.map_append, List.filter_append]
  congr 1
  cases hv : isStrJ v <;> simp [hv]

theorem find_ci_val_mem (d : Dict) (m : String) (kv : String × Json)
    (h : d.find? (fun kv => kv.1.toLower == m.toLower) = some kv) :
    kv.2 ∈ d.map (fun kv => kv.2) :=
  List.mem_map_of_mem _ (List.mem_of_find?_eq_some h)

theorem mem_stringValues (d : Dict) (v : Json) (hm : v ∈ d.map (fun kv => kv.2))
    (hs : isStrJ v = true) : v ∈ stringValues d :=
  List.mem_filter.mpr ⟨hm, hs⟩

/-- The two placements of strategy 2 agree: counting string values after the
strategy-1 mutation picks the same lone string (or fires in neither case) as
counting them on the provided arguments. -/
theorem strat2_values_eq (args : Dict) (r : String) (h : hasKey args r = false) :
    strat2Set (ciAdopt args r) r (stringValues (ciAdopt args r)) =
    strat2Set (ciAdopt args r) r (stringValues args) := by
  cases hf : args.find? (fun kv => kv.1.toLower == r.toLower) with
  | none =>
    have hca : ciAdopt args r = args := by
      unfold ciAdopt
      rw [hf]
    rw [hca]
  | some kv =>
    have hca : ciAdopt args r = args ++ [(r, kv.2)] := by
      unfold ciAdopt
      rw [hf]
      exact dictSet_not_mem args r kv.2 h
    rw [hca, stringValues_append]
    cases hs : isStrJ kv.2 with
    | false => simp [hs]
    | true =>
      have hv : kv.2 ∈ stringValues args :=
        mem_stringValues args kv.2 (find_ci_val_mem args r kv hf) hs
      rw [if_pos rfl]
      cases hsv : stringValues args with
      | nil => rw [hsv] at hv; cases hv
      | cons w tail =>
        cases tail with
        | nil =>
          have hw : kv.2 = w := by
            rw [hsv] at hv; simpa using hv
          simp only [List.cons_append, List.nil_append, strat2Set]
          rw [← hw]
          exact (dictSet_append_same args r kv.2 h).symm
        | cons w2 ws =>
          simp [strat2Set]

theorem repairStepCode_false (a : Dict) (m : String) :
    repairStepCode false a m = ciAdopt a m := by
  simp [repairStepCode]

theorem repairCode_eq_repairSpec (required : List String) (args : Dict) :
    repairCode required args = repairSpec required args := by
  cases required with
  | nil => rfl
  | cons r1 rest1 =>
    cases rest1 with
    | cons r2 rs =>
      have hlen : (((r1 :: r2 :: rs : List String)).length == 1) = false := by
        rw [beq_eq_false_iff_ne]
        simp only [List.length_cons]
        omega
      unfold repairCode repairSpec
      simp only [hlen, Bool.false_and, Bool.false_eq_true, if_false]
      exact foldl_fun_congr _ _ repairStepCode_false _ _
    | nil =>
      cases hk : hasKey args r1 with
      | true =>
        unfold repairCode repairSpec
        simp [hk]
      | false =>
        have key := strat2_values_eq args r1 hk
        unfold repairCode repairSpec
        simp only [List.filter_cons, List.filter_nil, hk, Bool.not_false, if_true,
          List.length_cons, List.length_nil, List.foldl_cons, List.foldl_nil,
          Nat.zero_add]
        exact key

theorem processCalls_length (tools : String → Option ToolSpec)
    (parse : String → Option Json) (n : Nat) :
    ∀ (i : Nat) (calls : List TCEntry),
      ((processCalls tools parse n i calls).2).length = calls.length := by
  intro i calls
  induction calls generalizing i with
  | nil => rfl
  | cons c rest ih => simp [processCalls, ih]

theorem adapterResult_excl (r : AdapterResult) :
    deliveredContent r = [] ∨ reportedToolCalls r = [] := by
  cases r with
  | errDict m => exact .inl rfl
  | toolCallsDict j => exact .inl rfl
  | streamGen run => exact .inr rfl

theorem patList_find_none (s : String)
    (h : ∀ p ∈ patList, (reFindAll p s).length ≤ 1) :
    patList.find? (fun p => (reFindAll p s).length > 1) = none := by
  rw [List.find?_eq_none]
  intro p hp
  have := h p hp
  simp only [decide_eq_true_eq]
  omega

/-! ## Claim theorems -/

/-- C1: for every streaming `generate_response` call of the modelscope,
openai-compatible and openai adapters, the outputs delivered to the caller are
mutually exclusive between content and tool calls: a reported tool-call dict
comes with no content chunk, and a returned generator delivers content but can
never report a tool call (its early `return {"tool_calls": ...}` is invisible
to the consuming `for` loop). -/
theorem adapters_stream_mutual_exclusion :
    (∀ (pre : Preflight) (st : Nat) (items : List SseItem),
       deliveredContent (modelscopeGenerateStream pre st items) = [] ∨
       reportedToolCalls (modelscopeGenerateStream pre st items) = [])
    ∧ (∀ (pre : Preflight) (st : Nat) (items : List SseItem),
       deliveredContent (openaiCompatGenerateStream pre st items) = [] ∨
       reportedToolCalls (openaiCompatGenerateStream pre st items) = [])
    ∧ (∀ (req : Except String (List SdkChunk)),
       deliveredContent (openaiGenerateStream req) = [] ∨
       reportedToolCalls (openaiGenerateStream req) = []) :=
  ⟨fun pre st items => adapterResult_excl (modelscopeGenerateStream pre st items),
   fun pre st items => adapterResult_excl (openaiCompatGenerateStream pre st items),
   fun req => adapterResult_excl (openaiGenerateStream req)⟩

/-- C2: `_execute_tool` argument repair coincides with the specified
procedure: case-insensitive adoption for each missing parameter first, then
the single-string-value inference exactly when the tool has one required
parameter, one parameter is missing and the provided arguments contain
exactly one string value; afterwards a still-missing required parameter set
yields the failure outcome naming every missing parameter, comma-joined. -/
theorem executeTool_repair_refines_spec (tools : String → Option ToolSpec)
    (name : String) (args : Dict) :
    executeToolCode tools name args = executeToolSpecModel tools name args := by
  unfold executeToolCode executeToolSpecModel
  cases tools name with
  | none => rfl
  | some t => simp only [repairCode_eq_repairSpec]

/-- C3 (amended): on an `{"error": ...}` provider reply, `run` emits exactly
one error chunk and the only history change of the turn is the user message
appended at its start; no assistant message is appended. -/
theorem run_error_single_chunk_user_only
    (tools : String → Option ToolSpec) (parse : String → Option Json)
    (hist : List Msg) (prompt msg : String) (summary : Option String) :
    agentRun tools parse hist prompt (.errD msg) summary =
      ⟨[Json.str ("错误: " ++ msg)], hist ++ [⟨"user", prompt⟩], false⟩ := rfl

/-- C3 counterexample: the claim says the history is unchanged by an error
turn, but `run` appends the user message before consulting the provider, so
an error turn starting from the empty history ends with a one-element
history. -/
theorem run_error_history_changed :
    (agentRun noTools noParse [] "hi" (.errD "boom") none).hist = [⟨"user", "hi"⟩] ∧
    (agentRun noTools noParse [] "hi" (.errD "boom") none).hist ≠ ([] : List Msg) := by
  constructor
  · rfl
  · intro h
    rw [show (agentRun noTools noParse [] "hi" (.errD "boom") none).hist
        = [(⟨"user", "hi"⟩ : Msg)] from rfl] at h
    cases h

/-- C4 (amended): a single failing tool is fatal: whenever any configured
name fails to resolve, `_load_tools` propagates an error and produces no
registry at all. -/
theorem loadTools_failure_fatal
    (resolve : String → ToolResolve) (names : List String) (n : String)
    (hmem : n ∈ names) (hfail : resolve n ≠ .okR) :
    ∃ e, loadTools resolve names = .error e := by
  induction names with
  | nil => cases hmem
  | cons m rest ih =>
    cases hr : resolve m with
    | noModule =>
      exact ⟨"No module named tools." ++ m, by simp [loadTools, hr]⟩
    | noClass =>
      exact ⟨"module tools." ++ m ++ " has no attribute " ++ m ++ "Tool",
        by simp [loadTools, hr]⟩
    | okR =>
      rcases List.mem_cons.mp hmem with he | hrest
      · exact absurd (by rw [← he] at hr; exact hr) hfail
      · obtain ⟨e, heq⟩ := ih hrest
        exact ⟨e, by simp [loadTools, hr, heq]⟩

/-- C4 witness: instantiating the amended claim at a registry in which
`translation` fails to resolve. -/
theorem loadTools_failure_fatal_witness :
    ("translation" ∈ ["weather", "translation"]) ∧
    resolveOnlyWeather "translation" ≠ .okR ∧
    ∃ e, loadTools resolveOnlyWeather ["weather", "translation"] = .error e :=
  ⟨by decide, by decide,
   loadTools_failure_fatal resolveOnlyWeather ["weather", "translation"] "translation"
     (by decide) (by decide)⟩

/-- C4 counterexample: the claim promises that the remaining tools still load
when one fails, but a failing `translation` aborts the whole load, `weather`
included. -/
theorem loadTools_not_best_effort :
    loadTools resolveOnlyWeather ["weather", "translation"] =
      .error "module tools.translation has no attribute translationTool" := by
  rfl

/-- C7: tool-body exceptions are absorbed.  First conjunct: the
`_handle_tool_call` loop records a result for every requested call, so no
call aborts the turn.  Second conjunct: whenever the call reaches the
execution step (tool found, required parameters satisfied after repair) and
the body raises, `_execute_tool` returns the failure outcome carrying the
exception message instead of propagating. -/
theorem tool_exceptions_absorbed :
    (∀ (tools : String → Option ToolSpec) (parse : String → Option Json)
       (calls : List TCEntry),
       (handleRecords tools parse calls).length = calls.length)
    ∧ (∀ (tools : String → Option ToolSpec) (name : String) (args : Dict)
         (t : ToolSpec) (e : String),
       tools name = some t →
       ((requiredOf t).filter
         (fun p => !(hasKey (repairCode (requiredOf t) args) p))).isEmpty = true →
       t.body (filterSig t (repairCode (requiredOf t) args)) = .error e →
       executeToolCode tools name args = errObj ("工具执行失败: " ++ e)) := by
  constructor
  · intro tools parse calls
    exact processCalls_length tools parse calls.length 0 calls
  · intro tools name args t e ht hm hb
    unfold executeToolCode
    rw [ht]
    simp only [hm, hb, if_true]

/-- C7 witness: a tool whose body always raises, invoked with its required
parameter supplied, yields the converted failure outcome. -/
theorem tool_exceptions_absorbed_witness :
    executeToolCode raisingTools "boom" [("x", Json.str "1")] =
      errObj ("工具执行失败: " ++ "kaput") :=
  tool_exceptions_absorbed.2 raisingTools "boom" [("x", Json.str "1")] raisingSpec "kaput"
    rfl (by decide) rfl

/-- C8 (code bug): the parameter contract derived for `WeatherTool.execute`
is empty - `city`, which has no default, is neither listed nor marked
required, because the `[1:]` slice drops the first parameter of the already
self-less bound signature. -/
theorem toolParameters_drops_first_param :
    toolParameters weatherExecSig =
      Json.obj [("type", Json.str "object"), ("properties", Json.obj []),
                ("required", Json.arr [])] ∧
    (weatherExecSig.filter (fun p => !p.hasDefault)).map (fun p => p.name) = ["city"] :=
  ⟨rfl, rfl⟩

theorem extractEntriesSdk_length :
    ∀ (i : Nat) (l : List SdkToolCall) (es : List Json),
      extractEntriesSdk i l = .ok es → es.length = l.length := by
  intro i l
  induction l generalizing i with
  | nil =>
    intro es h
    simp only [extractEntriesSdk] at h
    injection h with h2
    rw [← h2]
    rfl
  | cons tc rest ih =>
    intro es h
    cases htc : tc.function with
    | none =>
      simp only [extractEntriesSdk, htc] at h
      exact absurd h (by simp)
    | some f =>
      simp only [extractEntriesSdk, htc] at h
      cases hrec : extractEntriesSdk (i + 1) rest with
      | error u => rw [hrec] at h; exact absurd h (by simp)
      | ok es2 =>
        rw [hrec] at h
        injection h with h2
        rw [← h2, List.length_cons, List.length_cons, ih (i + 1) es2 hrec]

theorem extractEntriesSdk_keys :
    ∀ (i : Nat) (l : List SdkToolCall) (es : List Json),
      extractEntriesSdk i l = .ok es → ∀ e ∈ es, entryHasKeys e = true := by
  intro i l
  induction l generalizing i with
  | nil =>
    intro es h e he
    simp only [extractEntriesSdk] at h
    injection h with h2
    rw [← h2] at he
    cases he
  | cons tc rest ih =>
    intro es h e he
    cases htc : tc.function with
    | none =>
      simp only [extractEntriesSdk, htc] at h
      exact absurd h (by simp)
    | some f =>
      simp only [extractEntriesSdk, htc] at h
      cases hrec : extractEntriesSdk (i + 1) rest with
      | error u => rw [hrec] at h; exact absurd h (by simp)
      | ok es2 =>
        rw [hrec] at h
        injection h with h2
        rw [← h2] at he
        rcases List.mem_cons.mp he with rfl | hm
        · rfl
        · exact ih (i + 1) es2 hrec e hm

theorem extractEntryDict_keys (i : Nat) (tc : Json) (e : Json)
    (h : extractEntryDict i tc = .ok (some e)) : entryHasKeys e = true := by
  unfold extractEntryDict at h
  split at h
  · split at h
    · split at h
      · injection h with h2
        exact Option.noConfusion h2
      · split at h
        · injection h with h2
          injection h2 with h3
          rw [← h3]
          rfl
        · injection h with h2
          exact Option.noConfusion h2
    · exact Except.noConfusion h
    · injection h with h2
      injection h2 with h3
      rw [← h3]
      rfl
  · exact Except.noConfusion h

theorem extractEntriesDict_keys :
    ∀ (i : Nat) (l : List Json) (es : List Json),
      extractEntriesDict i l = .ok es → ∀ e ∈ es, entryHasKeys e = true := by
  intro i l
  induction l generalizing i with
  | nil =>
    intro es h e he
    simp only [extractEntriesDict] at h
    injection h with h2
    rw [← h2] at he
    cases he
  | cons tc rest ih =>
    intro es h e he
    unfold extractEntriesDict at h
    cases hstep : extractEntryDict i tc with
    | error u => rw [hstep] at h; exact absurd h (by simp)
    | ok o =>
      rw [hstep] at h
      cases o with
      | none => exact ih (i + 1) es h e he
      | some e1 =>
        cases hrec : extractEntriesDict (i + 1) rest with
        | error u => rw [hrec] at h; exact absurd h (by simp)
        | ok es2 =>
          rw [hrec] at h
          injection h with h2
          rw [← h2] at he
          rcases List.mem_cons.mp he with rfl | hm
          · exact extractEntryDict_keys i tc e hstep
          · exact ih (i + 1) es2 hrec e hm

theorem mkToolCallsResult_shape (tcs : List Json) :
    wellShapedExtract (mkToolCallsResult (extractEntriesDict 0 tcs)) = true := by
  cases h : extractEntriesDict 0 tcs with
  | error u => rfl
  | ok es =>
    cases es with
    | nil => rfl
    | cons e es2 =>
      have hk := extractEntriesDict_keys 0 tcs (e :: es2) h
      simp only [mkToolCallsResult, wellShapedExtract, List.isEmpty_cons,
        Bool.not_false, Bool.true_and]
      rw [List.all_eq_true]
      exact hk

theorem extractToolCallsJson_shape (j : Json) :
    wellShapedExtract (extractToolCallsJson j) = true := by
  unfold extractToolCallsJson
  repeat' split
  any_goals rfl
  exact mkToolCallsResult_shape _

/-- C9: the shared extractor is total and shape-preserving over every input
shape (`None`, SDK object, JSON dict of any shape, other object): it returns
`None` - every internal exception is caught and becomes `None` - or a dict
whose `tool_calls` value is a non-empty list of entries that all carry the
keys `id`, `name` and `arguments`. -/
theorem extractToolCalls_total_shape :
    ∀ d : RespData, wellShapedExtract (extractToolCalls d) = true := by
  intro d
  cases d with
  | pyNone => rfl
  | otherObj => rfl
  | jsonDict j => exact extractToolCallsJson_shape j
  | sdk r =>
    obtain ⟨chs⟩ := r
    cases chs with
    | nil => rfl
    | cons c0 cs =>
      obtain ⟨⟨mtc⟩⟩ := c0
      cases mtc with
      | none => rfl
      | some l =>
        cases l with
        | nil => rfl
        | cons t ts =>
          show wellShapedExtract
            (match extractEntriesSdk 0 (t :: ts) with
             | .error _ => none
             | .ok es => some (.obj [("tool_calls", .arr es)])) = true
          cases hb : extractEntriesSdk 0 (t :: ts) with
          | error u => rfl
          | ok es =>
            have hlen := extractEntriesSdk_length 0 (t :: ts) es hb
            have hk := extractEntriesSdk_keys 0 (t :: ts) es hb
            cases es with
            | nil => simp at hlen
            | cons e es2 =>
              simp only [wellShapedExtract, List.isEmpty_cons, Bool.not_false,
                Bool.true_and]
              rw [List.all_eq_true]
              exact hk

theorem mk_ne_empty (w : List Char) (h : w ≠ []) : String.mk w ≠ "" := by
  intro he
  apply h
  have hd : (String.mk w).data = ("" : String).data := by rw [he]
  simpa using hd

theorem splitWs_words_ne_nil :
    ∀ (fuel : Nat) (cs : List Char) (w : List Char), w ∈ splitWsAux fuel cs → w ≠ [] := by
  intro fuel
  induction fuel with
  | zero =>
    intro cs w h
    cases cs <;> simp [splitWsAux] at h
  | succ f ih =>
    intro cs w h
    cases cs with
    | nil => simp [splitWsAux] at h
    | cons c rest =>
      cases hw : isWsPy c with
      | true =>
        simp only [splitWsAux, hw, if_true] at h
        exact ih rest w h
      | false =>
        simp only [splitWsAux, hw, Bool.false_eq_true, if_false] at h
        rcases List.mem_cons.mp h with rfl | hm
        · simp
        · exact ih _ w hm

theorem sentenceWordChunks_ne_empty :
    ∀ (ws : List (List Char)), (∀ w ∈ ws, w ≠ []) →
      ∀ c ∈ sentenceWordChunks ws, c ≠ "" := by
  intro ws
  induction ws with
  | nil =>
    intro _ c hc
    cases hc
  | cons w rest ih =>
    intro hws c hc
    cases rest with
    | nil =>
      simp only [sentenceWordChunks, List.mem_singleton] at hc
      subst hc
      exact mk_ne_empty w (hws w (by simp))
    | cons v vs =>
      simp only [sentenceWordChunks] at hc
      rcases List.mem_cons.mp hc with rfl | hm
      · exact mk_ne_empty _ (by simp)
      · exact ih (fun x hx => hws x (List.mem_cons_of_mem _ hx)) c hm

theorem streamTextSentence_ne_empty (lastS s : List Char) :
    ∀ c ∈ streamTextSentence lastS s, c ≠ "" := by
  intro c hc
  unfold streamTextSentence at hc
  by_cases hstrip : pyStripL s = []
  · rw [if_pos hstrip] at hc
    cases hc
  · rw [if_neg hstrip] at hc
    rcases List.mem_append.mp hc with h1 | h2
    · exact sentenceWordChunks_ne_empty _ (fun w hw => splitWs_words_ne_nil _ _ w hw) c h1
    · cases hl : s.getLast? with
      | none =>
        rw [hl] at h2
        cases h2
      | some ch =>
        rw [hl] at h2
        split at h2
        · split at h2
          · rw [List.mem_singleton] at h2
            subst h2
            decide
          · cases h2
        · cases h2

/-- C10: `_stream_text` on falsy (empty) text yields exactly the single
fallback chunk `"无响应"`, and on every input no yielded chunk is the empty
string (words come from `str.split()`, which never produces empty words, and
the inter-sentence chunk is a single space). -/
theorem streamText_fallback_and_no_empty_chunk :
    streamText "" = ["无响应"] ∧
    ∀ (t : String), ∀ c ∈ streamText t, c ≠ "" := by
  constructor
  · rfl
  · intro t c hc
    by_cases ht : t = ""
    · rw [ht] at hc
      rw [show streamText "" = ["无响应"] from rfl, List.mem_singleton] at hc
      subst hc
      decide
    · unfold streamText at hc
      rw [if_neg ht] at hc
      rw [List.mem_flatten] at hc
      obtain ⟨l, hl, hcl⟩ := hc
      obtain ⟨s, _, rfl⟩ := List.mem_map.mp hl
      exact streamTextSentence_ne_empty _ s c hcl

/-- C10 witness: at the concrete inputs `""` and `"hello"`. -/
theorem streamText_no_empty_chunk_witness :
    ("hello" ∈ streamText "hello") ∧ "hello" ≠ "" :=
  ⟨by decide, streamText_fallback_and_no_empty_chunk.2 "hello" "hello" (by decide)⟩

/-- C5 (amended): when no multi-question pattern yields more than one match,
the splitter falls back to blank-line paragraphs whenever two or more result
- with no upper bound - and otherwise returns the whole text as a
single-element sequence. -/
theorem split_fallback_any_paragraphs (content : String)
    (h : ∀ p ∈ patList, (reFindAll p content).length ≤ 1) :
    splitMultipleResponses content =
      (if (paragraphsOf content).length > 1 then paragraphsOf content
       else [content]) := by
  unfold splitMultipleResponses
  rw [patList_find_none content h]

/-- C5 witness: a two-paragraph text with no pattern match splits into its
paragraphs. -/
theorem split_fallback_any_paragraphs_witness :
    (∀ p ∈ patList, (reFindAll p "a\n\nb").length ≤ 1) ∧
    splitMultipleResponses "a\n\nb" =
      (if (paragraphsOf "a\n\nb").length > 1 then paragraphsOf "a\n\nb"
       else ["a\n\nb"]) :=
  ⟨by decide, split_fallback_any_paragraphs "a\n\nb" (by decide)⟩

/-- C5 counterexample: the claim bounds the paragraph fallback at ten
paragraphs, but eleven pattern-free paragraphs are still split instead of
being returned as a single element. -/
theorem split_eleven_paragraphs :
    (∀ p ∈ patList, (reFindAll p elevenParas).length ≤ 1) ∧
    (paragraphsOf elevenParas).length = 11 ∧
    splitMultipleResponses elevenParas ≠ [elevenParas] :=
  ⟨by decide, by decide, by decide⟩

/-- C6 (amended): element-wise idempotence of the splitter holds exactly for
output elements on which no pattern matches more than once and whose
blank-line split leaves at most one paragraph; in general re-splitting an
element of the output can split further. -/
theorem split_idempotent_on_unsplittable_elements (c e : String)
    (_hmem : e ∈ splitMultipleResponses c)
    (hp : ∀ p ∈ patList, (reFindAll p e).length ≤ 1)
    (hpar : (paragraphsOf e).length ≤ 1) :
    splitMultipleResponses e = [e] := by
  unfold splitMultipleResponses
  rw [patList_find_none e hp]
  rw [if_neg (by omega)]

/-- C6 witness: a plain single-paragraph text is returned unchanged and
re-splitting it returns it unchanged again. -/
theorem split_idempotent_witness :
    ("hello" ∈ splitMultipleResponses "hello") ∧
    splitMultipleResponses "hello" = ["hello"] :=
  ⟨by decide,
   split_idempotent_on_unsplittable_elements "hello" "hello" (by decide) (by decide)
     (by decide)⟩

/-- C6 counterexample: the element `"问题1:A\n\nB"` of the splitter output for
`"问题1: A\n\nB 问题2: C"` is split further (into its two paragraphs) when the
splitter is re-applied to it, refuting element-wise idempotence. -/
theorem split_not_elementwise_idempotent :
    multiQElem ∈ splitMultipleResponses multiQContent ∧
    splitMultipleResponses multiQElem ≠ [multiQElem] :=
  ⟨by decide, by decide⟩
